import Mathlib

/-!
Shallow embedding of the Task Orchestration Core of the LotusCoder backend:
the agent registry (`agent.registry.ts`), the audit wrapper
(`base-agent.ts` / `BaseAgent.processTask`), the batch runner
(`executeTasks`), the workflow orchestrator (`orchestrateWorkflow`) and the
service layer (`agents.service.ts` / `executeAgentTask`).

Modelling conventions:
- JavaScript `Map` objects become insertion-ordered association lists.
  `Map.set` replaces the value in place when the key exists (preserving
  insertion order), otherwise appends; `Map.get` finds the unique binding.
- A thrown exception becomes `Except.error msg` carrying the message.
- Opaque result payloads are `Option String`; JSON serialisation of an
  opaque payload is modelled as the payload itself (`JSON.stringify` of
  `undefined` is `undefined`, hence `Option.map id`).
- Nondeterministic ambient data of one `executeTask` call (generated
  record id, request id, timestamps, durations, and whether the initial
  persistence write succeeds) is supplied by an `ExecEnv` oracle; loops
  that perform several calls receive a stream `Nat → ExecEnv`.
- Persistence writes and executor invocation are made observable as an
  event trace (`PersistEvent`), so that ordering and record-lifecycle
  claims are statable.
-/

set_option autoImplicit false

namespace LotusCoder

/-- `Map.get` of a JS `Map`: the unique binding of the key, if any. -/
def mapGet {κ α : Type} [DecidableEq κ] (k : κ) : List (κ × α) → Option α
  | [] => none
  | (k2, v) :: rest => if k2 = k then some v else mapGet k rest

/-- `Map.has`. -/
def mapHas {κ α : Type} [DecidableEq κ] (k : κ) (m : List (κ × α)) : Bool :=
  (mapGet k m).isSome

/-- `Map.set`: replace in place when present (keeping insertion order),
append otherwise. -/
def mapSet {κ α : Type} [DecidableEq κ] (k : κ) (v : α) : List (κ × α) → List (κ × α)
  | [] => [(k, v)]
  | (k2, v2) :: rest => if k2 = k then (k2, v) :: rest else (k2, v2) :: mapSet k v rest

/-- `AgentConfig` (interfaces/agent.interface.ts). -/
structure AgentConfig where
  name : String
  type : String
  enabled : Bool
  role : String
  description : String
  timeout : Nat
  retryAttempts : Nat
  maxConcurrent : Nat
  deriving DecidableEq, Inhabited

/-- `AgentOutput` (interfaces/agent.interface.ts): the TaskResult shape. -/
structure AgentOutput where
  success : Bool
  result : Option String := none
  error : Option String := none
  duration : Nat := 0
  tokensUsed : Option Nat := none
  agentExecutionId : Option String := none
  nextActions : Option (List String) := none
  deriving DecidableEq, Inhabited

/-- The opaque `context` payload of a task. The workflow orchestrator
passes `{previousResults: Object.fromEntries(stepResults)}`. -/
inductive TaskContext where
  | raw (payload : String)
  | prev (previousResults : List (String × AgentOutput))
  deriving DecidableEq

/-- The `metadata` stamped onto the input by `AgentRegistry.executeTask`. -/
structure TaskMetadata where
  timestamp : String
  requestId : String
  deriving DecidableEq

/-- `AgentInput` (interfaces/agent.interface.ts). -/
structure AgentInput where
  task : String
  context : Option TaskContext := none
  projectId : Option String := none
  taskId : Option String := none
  metadata : Option TaskMetadata := none
  deriving DecidableEq

/-- The `AgentExecution` audit entity as written by `BaseAgent.processTask`.
The serialized `input` column is modelled by the input value itself. -/
structure ExecutionRecord where
  id : String
  agentType : String
  agentName : String
  status : String
  input : AgentInput
  output : Option String := none
  error : Option String := none
  duration : Option Nat := none
  tokensUsed : Option Nat := none
  taskId : Option String := none
  projectId : Option String := none
  startedAt : Nat
  completedAt : Option Nat := none
  deriving DecidableEq

/-- Observable events of one `processTask` run: a successful persistence
write of the record, and the invocation of the executor. -/
inductive PersistEvent where
  | save (r : ExecutionRecord)
  | exec
  deriving DecidableEq

/-- A registered executor: its static config and its `execute` behaviour
(`Except.error` models `execute` throwing). -/
structure BaseAgent where
  config : AgentConfig
  execute : AgentInput → Except String AgentOutput

/-- `BaseAgent.isEnabled`. -/
def BaseAgent.isEnabled (a : BaseAgent) : Bool := a.config.enabled

/-- `BaseAgent.getConfig` returns a copy `{...this.config}`; the copy/alias
distinction is modelled separately with the heap model below. -/
def BaseAgent.getConfig (a : BaseAgent) : AgentConfig := a.config

/-- The ambient nondeterminism of one `executeTask`/`processTask` call:
generated ids and timestamps, the measured duration, and whether the
initial `running` persistence write succeeds (`initSaveErr = some msg`
means that `save` threw with message `msg`). -/
structure ExecEnv where
  recId : String := "rec-0"
  requestId : String := "req-0"
  timestamp : String := "t-0"
  initSaveErr : Option String := none
  startTime : Nat := 0
  dur : Nat := 0
  deriving DecidableEq

/-- `BaseAgent.processTask` (base-agent.ts, lines 29-91): create the
`running` record, persist it, invoke the executor, persist the terminal
record; a thrown exception (from the initial save or from the executor) is
caught and converted into a `success = false` output, with the record (which
is always already constructed) marked `failed`. Returns the output together
with the trace of persistence/executor events. -/
def BaseAgent.processTask (a : BaseAgent) (input : AgentInput) (env : ExecEnv) :
    AgentOutput × List PersistEvent :=
  let rec0 : ExecutionRecord :=
    { id := env.recId
      agentType := a.config.type
      agentName := a.config.name
      status := "running"
      input := input
      taskId := input.taskId
      projectId := input.projectId
      startedAt := env.startTime }
  match env.initSaveErr with
  | some msg =>
      let recF := { rec0 with
        status := "failed"
        error := some msg
        duration := some env.dur
        completedAt := some (env.startTime + env.dur) }
      ({ success := false
         error := some msg
         duration := env.dur
         agentExecutionId := some env.recId },
       [PersistEvent.save recF])
  | none =>
      match a.execute input with
      | Except.ok result =>
          let rec1 := { rec0 with
            status := if result.success then "completed" else "failed"
            output := if result.success then result.result else result.error
            error := result.error
            duration := some env.dur
            tokensUsed := result.tokensUsed
            completedAt := some (env.startTime + env.dur) }
          ({ result with agentExecutionId := some env.recId, duration := env.dur },
           [PersistEvent.save rec0, PersistEvent.exec, PersistEvent.save rec1])
      | Except.error msg =>
          let recF := { rec0 with
            status := "failed"
            error := some msg
            duration := some env.dur
            completedAt := some (env.startTime + env.dur) }
          ({ success := false
             error := some msg
             duration := env.dur
             agentExecutionId := some env.recId },
           [PersistEvent.save rec0, PersistEvent.exec, PersistEvent.save recF])

/-- The registry state: the `agents` map. -/
structure AgentRegistry where
  agents : List (String × BaseAgent) := []

/-- `AgentRegistry.registerAgent` (agent.registry.ts, lines 44-56): a
disabled agent is skipped (log and return); otherwise `Map.set`
(last-write-wins replacement). -/
def AgentRegistry.registerAgent (reg : AgentRegistry) (type : String) (agent : BaseAgent) :
    AgentRegistry :=
  if !agent.isEnabled then reg
  else { reg with agents := mapSet type agent reg.agents }

/-- `AgentRegistry.getAgent` (lines 58-66): plain lookup, `undefined` when
absent. -/
def AgentRegistry.getAgent (reg : AgentRegistry) (type : String) : Option BaseAgent :=
  mapGet type reg.agents

/-- The error message thrown by `executeTask` for an unknown agent type
(quotation marks around the type elided). -/
def notAvailableMsg (agentType : String) : String :=
  "Agent type " ++ agentType ++ " not available"

/-- The `input` object built by `executeTask` (lines 96-105), with the
metadata stamped from the ambient oracle. -/
def mkTaskInput (env : ExecEnv) (task : String) (context : Option TaskContext)
    (projectId : Option String) (taskId : Option String) : AgentInput :=
  { task := task
    context := context
    projectId := projectId
    taskId := taskId
    metadata := some { timestamp := env.timestamp, requestId := env.requestId } }

/-- `AgentRegistry.executeTask` (lines 82-121): resolve the agent (throwing
when absent, before any record exists), build the input with stamped
metadata, run `processTask`; a returned `success = false` output is turned
into a thrown error (`throw new Error(result.error)`), and a caught error is
re-thrown. Returns the outcome together with the persistence trace. -/
def AgentRegistry.executeTask (reg : AgentRegistry) (env : ExecEnv)
    (agentType : String) (task : String) (context : Option TaskContext)
    (projectId : Option String) (taskId : Option String) :
    Except String AgentOutput × List PersistEvent :=
  match reg.getAgent agentType with
  | none => (Except.error (notAvailableMsg agentType), [])
  | some agent =>
      let out := agent.processTask (mkTaskInput env task context projectId taskId) env
      if out.fst.success then (Except.ok out.fst, out.snd)
      else (Except.error (out.fst.error.getD ""), out.snd)

/-- The response object of `AgentsService.executeAgentTask`
(agents.service.ts, lines 246-281). -/
structure ServiceTaskResult where
  success : Bool
  agentType : String
  task : String
  result : Option AgentOutput := none
  error : Option String := none
  timestamp : String
  deriving DecidableEq

/-- `AgentsService.executeAgentTask`: wraps `executeTask` in try/catch and
always returns an object, with `success := false` carrying the message of
any thrown error (including agent-not-found). -/
def executeAgentTask (reg : AgentRegistry) (env : ExecEnv) (now : String)
    (agentType : String) (task : String) (context : Option TaskContext)
    (projectId : Option String) (taskId : Option String) : ServiceTaskResult :=
  match (reg.executeTask env agentType task context projectId taskId).fst with
  | Except.ok result =>
      { success := true
        agentType := agentType
        task := task
        result := some result
        timestamp := now }
  | Except.error e =>
      { success := false
        agentType := agentType
        task := task
        error := some e
        timestamp := now }

/-- One request of a batch (`executeTasks`). -/
structure TaskRequest where
  agentType : String
  task : String
  context : Option TaskContext := none
  projectId : Option String := none
  taskId : Option String := none
  deriving DecidableEq

/-- One entry of the batch result array: either the `executeTask` result
(which resolved), or the failure stub `{success:false, error, agentType}`
produced by the per-promise `.catch`. -/
inductive BatchResult where
  | res (r : AgentOutput)
  | stub (error : String) (agentType : String)
  deriving DecidableEq

/-- One promise of the batch: `executeTask(...).catch(error => stub)`. -/
def runOne (reg : AgentRegistry) (env : ExecEnv) (req : TaskRequest) : BatchResult :=
  match (reg.executeTask env req.agentType req.task req.context req.projectId req.taskId).fst with
  | Except.ok r => BatchResult.res r
  | Except.error e => BatchResult.stub e req.agentType

/-- The `requests.map(...)` + `Promise.all` of `executeTasks`, with the
oracle stream indexed from `i`. -/
def executeTasksFrom (reg : AgentRegistry) (envs : Nat → ExecEnv) (i : Nat) :
    List TaskRequest → List BatchResult
  | [] => []
  | req :: rest => runOne reg (envs i) req :: executeTasksFrom reg envs (i + 1) rest

/-- `AgentRegistry.executeTasks` (lines 123-154). -/
def AgentRegistry.executeTasks (reg : AgentRegistry) (envs : Nat → ExecEnv)
    (requests : List TaskRequest) : List BatchResult :=
  executeTasksFrom reg envs 0 requests

/-- A workflow step (agent.registry.ts, `orchestrateWorkflow` parameter). -/
structure WorkflowStep where
  agentType : String
  task : String
  dependencies : Option (List String) := none
  condition : Option String := none
  deriving DecidableEq

/-- A workflow definition. -/
structure Workflow where
  name : String
  steps : List WorkflowStep
  deriving DecidableEq

/-- One entry of `executedSteps`: `{step, result, status: completed}` or
`{step, error, status: failed}`. -/
inductive StepEntry where
  | completed (step : WorkflowStep) (result : AgentOutput)
  | failed (step : WorkflowStep) (error : String)
  deriving DecidableEq

/-- The `status` field of a step-log entry. -/
def StepEntry.status : StepEntry → String
  | .completed _ _ => "completed"
  | .failed _ _ => "failed"

/-- The dependency keys of a step that are not yet present in the
accumulated results map (`step.dependencies.filter(dep => !stepResults.has(dep))`;
absent or empty dependency lists yield no missing keys). -/
def missingDeps (step : WorkflowStep) (stepResults : List (String × AgentOutput)) :
    List String :=
  match step.dependencies with
  | none => []
  | some deps => deps.filter (fun dep => !(mapHas dep stepResults))

/-- The final report of `orchestrateWorkflow`. -/
structure WorkflowRun where
  workflow : String
  totalSteps : Nat
  completedSteps : Nat
  failedSteps : Nat
  results : List (String × AgentOutput)
  steps : List StepEntry
  deriving DecidableEq, Inhabited

/-- The step loop of `orchestrateWorkflow` (lines 170-197): skip a step with
missing dependencies; otherwise run it, accumulating `executedSteps` and
`stepResults`; on failure append a `failed` entry and re-raise unless the
workflow is named `"non-critical"`. The last component is the trace of
steps whose executor was actually invoked (`executeTask` called). -/
def orchestrateLoop (reg : AgentRegistry) (envs : Nat → ExecEnv) (name : String) :
    List WorkflowStep → Nat → List StepEntry → List (String × AgentOutput) →
    List WorkflowStep →
    Except String (List StepEntry × List (String × AgentOutput)) × List WorkflowStep
  | [], _, executedSteps, stepResults, calls =>
      (Except.ok (executedSteps, stepResults), calls)
  | step :: rest, i, executedSteps, stepResults, calls =>
      if missingDeps step stepResults ≠ [] then
        orchestrateLoop reg envs name rest (i + 1) executedSteps stepResults calls
      else
        match (reg.executeTask (envs i) step.agentType step.task
                (some (TaskContext.prev stepResults)) none none).fst with
        | Except.ok result =>
            orchestrateLoop reg envs name rest (i + 1)
              (executedSteps ++ [StepEntry.completed step result])
              (mapSet step.task result stepResults)
              (calls ++ [step])
        | Except.error msg =>
            if name ≠ "non-critical" then
              (Except.error msg, calls ++ [step])
            else
              orchestrateLoop reg envs name rest (i + 1)
                (executedSteps ++ [StepEntry.failed step msg])
                stepResults
                (calls ++ [step])

/-- `AgentRegistry.orchestrateWorkflow` (lines 156-207): run the loop and
assemble the final report (the thrown error of an aborted run carries no
partial report). -/
def AgentRegistry.orchestrateWorkflow (reg : AgentRegistry) (envs : Nat → ExecEnv)
    (w : Workflow) : Except String WorkflowRun × List WorkflowStep :=
  match orchestrateLoop reg envs w.name w.steps 0 [] [] [] with
  | (Except.error e, calls) => (Except.error e, calls)
  | (Except.ok (executedSteps, stepResults), calls) =>
      (Except.ok
        { workflow := w.name
          totalSteps := w.steps.length
          completedSteps := (executedSteps.filter (fun s => s.status == "completed")).length
          failedSteps := (executedSteps.filter (fun s => s.status == "failed")).length
          results := stepResults
          steps := executedSteps }, calls)

/-! ### Heap model for reference/copy semantics

JavaScript objects live on a heap and are passed by reference; `new Map(m)`
and `{...obj}` allocate fresh copies. To state the copy-vs-alias claims we
model a heap of values addressed by `Nat`, with allocation returning a fresh
address. -/

/-- A heap of `α`-objects: the next fresh address and the store. -/
structure Heap (α : Type) where
  next : Nat
  store : List (Nat × α)

/-- Read the object at an address. -/
def Heap.get {α : Type} (h : Heap α) (addr : Nat) : Option α :=
  mapGet addr h.store

/-- Allocate a fresh object, returning its address. -/
def Heap.alloc {α : Type} (h : Heap α) (v : α) : Nat × Heap α :=
  (h.next, { next := h.next + 1, store := (h.next, v) :: h.store })

/-- Mutate the object at an address in place. -/
def Heap.set {α : Type} (h : Heap α) (addr : Nat) (v : α) : Heap α :=
  { h with store := mapSet addr v h.store }

/-- The type of the registry's internal `agents` map object. -/
abbrev AgentsMap := List (String × BaseAgent)

/-- `getAllAgents` (lines 68-70) at the heap level: `new Map(this.agents)`
allocates a fresh map holding a copy of the contents at `regAddr`. -/
def getAllAgentsH (h : Heap AgentsMap) (regAddr : Nat) : Nat × Heap AgentsMap :=
  Heap.alloc h ((h.get regAddr).getD [])

/-- `BaseAgent.getConfig` (base-agent.ts, lines 99-101) at the heap level:
`{...this.config}` allocates a fresh copy of the config object at
`cfgAddr`. -/
def getConfigH (h : Heap AgentConfig) (cfgAddr : Nat) : Nat × Heap AgentConfig :=
  Heap.alloc h ((h.get cfgAddr).getD default)

/-- `getAgent` at the heap level: a pure read of the map at `regAddr`; the
heap is untouched. -/
def getAgentH (h : Heap AgentsMap) (regAddr : Nat) (type : String) : Option BaseAgent :=
  mapGet type ((h.get regAddr).getD [])

/-- `getAvailableAgents` (lines 72-80) at the heap level: a pure read
collecting the config copies; the heap of maps is untouched. -/
def getAvailableAgentsH (h : Heap AgentsMap) (regAddr : Nat) : List AgentConfig :=
  ((h.get regAddr).getD []).map (fun p => p.snd.getConfig)

/-- `registerAgent` at the heap level: the only registry operation that
mutates the map object at `regAddr` (via `Map.set`), and only for an
enabled agent. -/
def registerAgentH (h : Heap AgentsMap) (regAddr : Nat) (type : String) (agent : BaseAgent) :
    Heap AgentsMap :=
  if !agent.isEnabled then h
  else Heap.set h regAddr (mapSet type agent ((h.get regAddr).getD []))

/-! ### Derived observations used by the statements -/

/-- The records durably written during a run, in write order. -/
def savedRecords : List PersistEvent → List ExecutionRecord
  | [] => []
  | PersistEvent.save r :: rest => r :: savedRecords rest
  | PersistEvent.exec :: rest => savedRecords rest

/-- The terminal (last written) record of a run, if any write happened. -/
def terminalRecord (events : List PersistEvent) : Option ExecutionRecord :=
  (savedRecords events).getLast?

/-- Replay a step log against a results map: each `completed` entry stores
its result under the key `step.task`, `failed` entries store nothing. -/
def resultsOfLog : List StepEntry → List (String × AgentOutput) → List (String × AgentOutput)
  | [], acc => acc
  | StepEntry.completed step r :: rest, acc => resultsOfLog rest (mapSet step.task r acc)
  | StepEntry.failed _ _ :: rest, acc => resultsOfLog rest acc

/-- Whether a step-log entry writes the key `t` into the results map. -/
def writesKey (t : String) : StepEntry → Bool
  | StepEntry.completed step _ => step.task == t
  | StepEntry.failed _ _ => false

/-! ### Concrete fixtures for counterexamples and witnesses -/

/-- A fully populated enabled config. -/
def okAgentCfg : AgentConfig :=
  { name := "Ok"
    type := "ok"
    enabled := true
    role := "executor"
    description := "always succeeds"
    timeout := 30
    retryAttempts := 0
    maxConcurrent := 1 }

/-- An agent whose executor succeeds, echoing the task string. -/
def okAgent : BaseAgent :=
  { config := okAgentCfg
    execute := fun input => Except.ok { success := true, result := some input.task } }

/-- An agent whose executor returns a failure result without throwing. -/
def failAgent : BaseAgent :=
  { config := { okAgentCfg with name := "Fail", type := "fail" }
    execute := fun _ => Except.ok { success := false, error := some "boom" } }

/-- An agent whose executor throws. -/
def throwAgent : BaseAgent :=
  { config := { okAgentCfg with name := "Throw", type := "throw" }
    execute := fun _ => Except.error "crash" }

/-- A disabled agent. -/
def disabledAgent : BaseAgent :=
  { config := { okAgentCfg with name := "Off", type := "off", enabled := false }
    execute := fun input => Except.ok { success := true, result := some input.task } }

/-- A registry with a succeeding, a failing and a throwing agent. -/
def cReg : AgentRegistry :=
  { agents := [("ok", okAgent), ("fail", failAgent), ("throw", throwAgent)] }

/-- An empty registry. -/
def emptyReg : AgentRegistry := {}

/-- A default ambient oracle. -/
def cEnv : ExecEnv := {}

/-- A constant oracle stream. -/
def cEnvs : Nat → ExecEnv := fun _ => {}

/-- An oracle stream with distinct ids per call, as `generateRequestId` and
`uuidv4` produce in the source. -/
def idxEnvs : Nat → ExecEnv :=
  fun i => { recId := "rec" ++ toString i, requestId := "req" ++ toString i }

/-- A step run by the failing agent. -/
def stepA : WorkflowStep := { agentType := "fail", task := "A" }

/-- An independent step (no dependencies) run by the succeeding agent. -/
def stepB : WorkflowStep := { agentType := "ok", task := "B" }

/-- Step producing key `A`. -/
def stepOkA : WorkflowStep := { agentType := "ok", task := "A" }

/-- Step depending on key `A`. -/
def stepDepA : WorkflowStep := { agentType := "ok", task := "B", dependencies := some ["A"] }

/-- Step depending on the never-produced key `Z`. -/
def stepDepZ : WorkflowStep := { agentType := "ok", task := "C", dependencies := some ["Z"] }

/-- The dependency-skipping workflow of spec property 4. -/
def wfABC : Workflow := { name := "wf", steps := [stepOkA, stepDepA, stepDepZ] }

/-- A step whose task key collides with another step's. -/
def dupStep : WorkflowStep := { agentType := "ok", task := "dup" }

/-- A workflow with two steps sharing the task key `dup`. -/
def wfDup : Workflow := { name := "wf", steps := [dupStep, dupStep] }

/-- The run of `wfABC`. -/
def c8pair : Except String WorkflowRun × List WorkflowStep :=
  cReg.orchestrateWorkflow cEnvs wfABC

/-- The report of the `wfABC` run. -/
def c8run : WorkflowRun :=
  match c8pair.fst with
  | Except.ok r => r
  | Except.error _ => default

/-- The run of `wfDup` under distinct per-call ids. -/
def c9pair : Except String WorkflowRun × List WorkflowStep :=
  cReg.orchestrateWorkflow idxEnvs wfDup

/-- The report of the `wfDup` run. -/
def c9run : WorkflowRun :=
  match c9pair.fst with
  | Except.ok r => r
  | Except.error _ => default

/-- The result the first `dup` step stores. -/
def rDup1 : AgentOutput :=
  { success := true, result := some "dup", duration := 0, agentExecutionId := some "rec0" }

/-- The result the second `dup` step stores, overwriting the first. -/
def rDup2 : AgentOutput :=
  { success := true, result := some "dup", duration := 0, agentExecutionId := some "rec1" }

/-- A batch request against a registered agent. -/
def wReq0 : TaskRequest := { agentType := "ok", task := "a" }

/-- A batch request against an unregistered agent. -/
def wReq1 : TaskRequest := { agentType := "ghost", task := "b" }

/-- A batch with one resolving and one not-found request. -/
def wReqs : List TaskRequest := [wReq0, wReq1]

/-- A one-object heap holding the registry's map at address 0. -/
def c10maps : Heap AgentsMap := { next := 1, store := [(0, [("ok", okAgent)])] }

/-- A one-object heap holding an agent's config at address 0. -/
def c10cfgs : Heap AgentConfig := { next := 1, store := [(0, okAgentCfg)] }

/-! ### Trace and report observations -/

/-- The shape of a trace event: a durable write with its status, or the
executor invocation. -/
inductive EventTag where
  | save (status : String)
  | invoke
  deriving DecidableEq

/-- Project a trace event to its shape. -/
def eventTag : PersistEvent → EventTag
  | PersistEvent.save r => EventTag.save r.status
  | PersistEvent.exec => EventTag.invoke

/-- The terminal status the wrapper assigns for a given executor outcome
(`result.success ? 'completed' : 'failed'`; a thrown exception is
`failed`). -/
def terminalStatus : Except String AgentOutput → String
  | Except.ok res => if res.success then "completed" else "failed"
  | Except.error _ => "failed"

/-- The failure output returned by `failAgent`. -/
def c6res : AgentOutput := { success := false, error := some "boom" }

/-- The terminal record `failAgent` leaves behind for task `t`. -/
def c6rec : ExecutionRecord :=
  { id := "rec-0"
    agentType := "fail"
    agentName := "Fail"
    status := "failed"
    input := { task := "t" }
    output := some "boom"
    error := some "boom"
    duration := some 0
    tokensUsed := none
    taskId := none
    projectId := none
    startedAt := 0
    completedAt := some 0 }

/-- The `running` record as created by `processTask` before the executor
runs. -/
def runningRecord (a : BaseAgent) (input : AgentInput) (env : ExecEnv) : ExecutionRecord :=
  { id := env.recId
    agentType := a.config.type
    agentName := a.config.name
    status := "running"
    input := input
    taskId := input.taskId
    projectId := input.projectId
    startedAt := env.startTime }

/-- The terminal record `processTask` writes for a given executor outcome
(initial save succeeding). -/
def terminalRecordOf (a : BaseAgent) (input : AgentInput) (env : ExecEnv) :
    Except String AgentOutput → ExecutionRecord
  | Except.ok result =>
      { runningRecord a input env with
        status := if result.success then "completed" else "failed"
        output := if result.success then result.result else result.error
        error := result.error
        duration := some env.dur
        tokensUsed := result.tokensUsed
        completedAt := some (env.startTime + env.dur) }
  | Except.error msg =>
      { runningRecord a input env with
        status := "failed"
        error := some msg
        duration := some env.dur
        completedAt := some (env.startTime + env.dur) }

/-! ## Theorems -/

/-! ### Map lemmas -/

theorem mapGet_mapSet_self {κ α : Type} [DecidableEq κ] (k : κ) (v : α) (m : List (κ × α)) :
    mapGet k (mapSet k v m) = some v := by
  induction m with
  | nil => simp [mapSet, mapGet]
  | cons p rest ih =>
      obtain ⟨k2, v2⟩ := p
      by_cases h : k2 = k
      · simp [mapSet, mapGet, h]
      · simp [mapSet, mapGet, h, ih]

theorem mapGet_mapSet_ne {κ α : Type} [DecidableEq κ] (k k2 : κ) (v : α) (m : List (κ × α))
    (h : k2 ≠ k) : mapGet k (mapSet k2 v m) = mapGet k m := by
  induction m with
  | nil => simp [mapSet, mapGet, h]
  | cons p rest ih =>
      obtain ⟨k3, v3⟩ := p
      by_cases h3 : k3 = k2
      · subst h3; simp [mapSet, mapGet, h]
      · by_cases h4 : k3 = k
        · subst h4; simp [mapSet, mapGet, h3, Ne.symm h]
        · simp [mapSet, mapGet, h3, h4, ih]

theorem mapHas_mapSet {κ α : Type} [DecidableEq κ] (k k2 : κ) (v : α) (m : List (κ × α))
    (h : mapHas k m = true) : mapHas k (mapSet k2 v m) = true := by
  by_cases hk : k2 = k
  · subst hk; simp [mapHas, mapGet_mapSet_self]
  · simpa [mapHas, mapGet_mapSet_ne k k2 v m hk] using h

/-! ### Step-log replay lemmas -/

theorem resultsOfLog_append (l1 l2 : List StepEntry) (acc : List (String × AgentOutput)) :
    resultsOfLog (l1 ++ l2) acc = resultsOfLog l2 (resultsOfLog l1 acc) := by
  induction l1 generalizing acc with
  | nil => rfl
  | cons e rest ih => cases e <;> simp [resultsOfLog, ih]

theorem mapGet_resultsOfLog_not_written (t : String) (l : List StepEntry)
    (acc : List (String × AgentOutput)) (hl : ∀ e ∈ l, writesKey t e = false) :
    mapGet t (resultsOfLog l acc) = mapGet t acc := by
  induction l generalizing acc with
  | nil => rfl
  | cons e rest ih =>
      cases e with
      | completed step r =>
          have hw : (step.task == t) = false := hl _ (List.mem_cons_self _ _)
          have hne : step.task ≠ t := by simpa using hw
          rw [resultsOfLog, ih _ (fun e he => hl e (List.mem_cons_of_mem _ he)),
            mapGet_mapSet_ne t step.task r acc hne]
      | failed step msg =>
          rw [resultsOfLog, ih _ (fun e he => hl e (List.mem_cons_of_mem _ he))]

/-! ### Step equations and invariants of the workflow loop -/

theorem orchestrateLoop_skip (reg : AgentRegistry) (envs : Nat → ExecEnv) (name : String)
    (step : WorkflowStep) (rest : List WorkflowStep) (i : Nat) (log : List StepEntry)
    (res : List (String × AgentOutput)) (calls : List WorkflowStep)
    (hm : missingDeps step res ≠ []) :
    orchestrateLoop reg envs name (step :: rest) i log res calls
      = orchestrateLoop reg envs name rest (i + 1) log res calls := by
  rw [orchestrateLoop, if_pos hm]

theorem orchestrateLoop_run_ok (reg : AgentRegistry) (envs : Nat → ExecEnv) (name : String)
    (step : WorkflowStep) (rest : List WorkflowStep) (i : Nat) (log : List StepEntry)
    (res : List (String × AgentOutput)) (calls : List WorkflowStep) (result : AgentOutput)
    (hm : missingDeps step res = [])
    (hE : (reg.executeTask (envs i) step.agentType step.task
        (some (TaskContext.prev res)) none none).fst = Except.ok result) :
    orchestrateLoop reg envs name (step :: rest) i log res calls
      = orchestrateLoop reg envs name rest (i + 1)
          (log ++ [StepEntry.completed step result]) (mapSet step.task result res)
          (calls ++ [step]) := by
  rw [orchestrateLoop, if_neg (by simp [hm]), hE]

theorem orchestrateLoop_fail_abort (reg : AgentRegistry) (envs : Nat → ExecEnv) (name : String)
    (step : WorkflowStep) (rest : List WorkflowStep) (i : Nat) (log : List StepEntry)
    (res : List (String × AgentOutput)) (calls : List WorkflowStep) (msg : String)
    (hm : missingDeps step res = [])
    (hE : (reg.executeTask (envs i) step.agentType step.task
        (some (TaskContext.prev res)) none none).fst = Except.error msg)
    (hn : name ≠ "non-critical") :
    orchestrateLoop reg envs name (step :: rest) i log res calls
      = (Except.error msg, calls ++ [step]) := by
  rw [orchestrateLoop, if_neg (by simp [hm]), hE]
  exact if_pos hn

theorem orchestrateLoop_fail_continue (reg : AgentRegistry) (envs : Nat → ExecEnv)
    (step : WorkflowStep) (rest : List WorkflowStep) (i : Nat) (log : List StepEntry)
    (res : List (String × AgentOutput)) (calls : List WorkflowStep) (msg : String)
    (hm : missingDeps step res = [])
    (hE : (reg.executeTask (envs i) step.agentType step.task
        (some (TaskContext.prev res)) none none).fst = Except.error msg) :
    orchestrateLoop reg envs "non-critical" (step :: rest) i log res calls
      = orchestrateLoop reg envs "non-critical" rest (i + 1)
          (log ++ [StepEntry.failed step msg]) res (calls ++ [step]) := by
  rw [orchestrateLoop, if_neg (by simp [hm]), hE]
  exact if_neg (by simp)

theorem orchestrateLoop_results (reg : AgentRegistry) (envs : Nat → ExecEnv) (name : String)
    (steps : List WorkflowStep) :
    ∀ (i : Nat) (log : List StepEntry) (res : List (String × AgentOutput))
      (calls : List WorkflowStep) (log2 : List StepEntry)
      (res2 : List (String × AgentOutput)) (calls2 : List WorkflowStep),
      orchestrateLoop reg envs name steps i log res calls = (Except.ok (log2, res2), calls2) →
      res = resultsOfLog log [] → res2 = resultsOfLog log2 [] := by
  induction steps with
  | nil =>
      intro i log res calls log2 res2 calls2 h hres
      simp only [orchestrateLoop, Prod.mk.injEq, Except.ok.injEq] at h
      obtain ⟨⟨hlog, hres2⟩, -⟩ := h
      subst hlog; subst hres2; exact hres
  | cons step rest ih =>
      intro i log res calls log2 res2 calls2 h hres
      by_cases hm : missingDeps step res = []
      · cases hE : (reg.executeTask (envs i) step.agentType step.task
            (some (TaskContext.prev res)) none none).fst with
        | ok result =>
            rw [orchestrateLoop_run_ok reg envs name step rest i log res calls result hm hE] at h
            refine ih (i + 1) _ _ _ _ _ _ h ?_
            rw [resultsOfLog_append, ← hres]
            rfl
        | error msg =>
            by_cases hn : name = "non-critical"
            · subst hn
              rw [orchestrateLoop_fail_continue reg envs step rest i log res calls msg hm hE] at h
              refine ih (i + 1) _ _ _ _ _ _ h ?_
              rw [resultsOfLog_append, ← hres]
              rfl
            · rw [orchestrateLoop_fail_abort reg envs name step rest i log res calls msg hm hE hn] at h
              exact absurd h (by simp)
      · rw [orchestrateLoop_skip reg envs name step rest i log res calls hm] at h
        exact ih (i + 1) _ _ _ _ _ _ h hres

theorem orchestrateLoop_mono (reg : AgentRegistry) (envs : Nat → ExecEnv) (name : String)
    (t : String) (steps : List WorkflowStep) :
    ∀ (i : Nat) (log : List StepEntry) (res : List (String × AgentOutput))
      (calls : List WorkflowStep) (log2 : List StepEntry)
      (res2 : List (String × AgentOutput)) (calls2 : List WorkflowStep),
      orchestrateLoop reg envs name steps i log res calls = (Except.ok (log2, res2), calls2) →
      mapHas t res = true → mapHas t res2 = true := by
  induction steps with
  | nil =>
      intro i log res calls log2 res2 calls2 h hres
      simp only [orchestrateLoop, Prod.mk.injEq, Except.ok.injEq] at h
      obtain ⟨⟨-, hres2⟩, -⟩ := h
      subst hres2; exact hres
  | cons step rest ih =>
      intro i log res calls log2 res2 calls2 h hres
      by_cases hm : missingDeps step res = []
      · cases hE : (reg.executeTask (envs i) step.agentType step.task
            (some (TaskContext.prev res)) none none).fst with
        | ok result =>
            rw [orchestrateLoop_run_ok reg envs name step rest i log res calls result hm hE] at h
            exact ih (i + 1) _ _ _ _ _ _ h (mapHas_mapSet t step.task result res hres)
        | error msg =>
            by_cases hn : name = "non-critical"
            · subst hn
              rw [orchestrateLoop_fail_continue reg envs step rest i log res calls msg hm hE] at h
              exact ih (i + 1) _ _ _ _ _ _ h hres
            · rw [orchestrateLoop_fail_abort reg envs name step rest i log res calls msg hm hE hn] at h
              exact absurd h (by simp)
      · rw [orchestrateLoop_skip reg envs name step rest i log res calls hm] at h
        exact ih (i + 1) _ _ _ _ _ _ h hres

theorem orchestrateWorkflow_ok (reg : AgentRegistry) (envs : Nat → ExecEnv) (w : Workflow)
    (run : WorkflowRun) (calls : List WorkflowStep)
    (h : reg.orchestrateWorkflow envs w = (Except.ok run, calls)) :
    orchestrateLoop reg envs w.name w.steps 0 [] [] []
      = (Except.ok (run.steps, run.results), calls) ∧
    run.workflow = w.name ∧
    run.totalSteps = w.steps.length ∧
    run.completedSteps = (run.steps.filter (fun s => s.status == "completed")).length ∧
    run.failedSteps = (run.steps.filter (fun s => s.status == "failed")).length := by
  unfold AgentRegistry.orchestrateWorkflow at h
  rcases hL : orchestrateLoop reg envs w.name w.steps 0 [] [] [] with ⟨exc, calls3⟩
  rw [hL] at h
  cases exc with
  | error e => simp at h
  | ok p =>
      obtain ⟨log2, res2⟩ := p
      simp only [Prod.mk.injEq, Except.ok.injEq] at h
      obtain ⟨hrun, hcalls⟩ := h
      subst hcalls
      rw [← hrun]
      exact ⟨rfl, rfl, rfl, rfl, rfl⟩

/-! ### Claims -/

/-- `executeTask` on a resolved agent, unfolded. -/
theorem executeTask_some (reg : AgentRegistry) (env : ExecEnv) (agentType task : String)
    (context : Option TaskContext) (projectId taskId : Option String) (agent : BaseAgent)
    (hag : reg.getAgent agentType = some agent) :
    reg.executeTask env agentType task context projectId taskId
      = (let out := agent.processTask (mkTaskInput env task context projectId taskId) env
         if out.fst.success then (Except.ok out.fst, out.snd)
         else (Except.error (out.fst.error.getD ""), out.snd)) := by
  unfold AgentRegistry.executeTask
  rw [hag]

/-- C1 (counterexample): the agent type `fail` is registered, yet
`executeTask` throws (`Except.error "boom"`) instead of returning the
failure TaskResult, refuting the claim that `RunTask` never throws for a
registered agent. -/
theorem C1_counterexample :
    (cReg.getAgent "fail").isSome = true ∧
    (cReg.executeTask cEnv "fail" "t" none none none).fst = Except.error "boom" :=
  ⟨rfl, rfl⟩

/-- C1 (amended): for a registered agent, `AgentRegistry.executeTask`
throws whenever the wrapped `processTask` output has `success = false`
(executor failure or thrown exception), carrying the output's error
message; the never-throwing conversion lives one layer up, in
`AgentsService.executeAgentTask`, which returns `success = false` in that
case. -/
theorem C1_amended_throw_conversion (reg : AgentRegistry) (env : ExecEnv) (now : String)
    (agentType task : String) (context : Option TaskContext)
    (projectId taskId : Option String) (agent : BaseAgent)
    (hag : reg.getAgent agentType = some agent)
    (hfail : (agent.processTask (mkTaskInput env task context projectId taskId) env).fst.success
        = false) :
    (reg.executeTask env agentType task context projectId taskId).fst
      = Except.error
          ((agent.processTask (mkTaskInput env task context projectId taskId) env).fst.error.getD "") ∧
    (executeAgentTask reg env now agentType task context projectId taskId).success = false := by
  have hx : (reg.executeTask env agentType task context projectId taskId).fst
      = Except.error
          ((agent.processTask (mkTaskInput env task context projectId taskId) env).fst.error.getD "") := by
    rw [executeTask_some reg env agentType task context projectId taskId agent hag]
    simp [hfail]
  refine ⟨hx, ?_⟩
  unfold executeAgentTask
  rw [hx]

/-- C1 witness: the amended claim at the concrete failing agent. -/
theorem C1_witness :
    (cReg.executeTask cEnv "fail" "t" none none none).fst
      = Except.error
          ((failAgent.processTask (mkTaskInput cEnv "t" none none none) cEnv).fst.error.getD "") ∧
    (executeAgentTask cReg cEnv "now" "fail" "t" none none none).success = false :=
  C1_amended_throw_conversion cReg cEnv "now" "fail" "t" none none none failAgent rfl rfl

/-- C2: a step failure (with dependencies satisfied) aborts the loop
immediately for any workflow name other than `"non-critical"` — the
remaining steps, dependent or not, are never attempted (the call trace ends
at the failing step); for the name `"non-critical"` the failure is appended
to the step log as `failed` and the loop continues with the next step. -/
theorem C2_failure_propagation (reg : AgentRegistry) (envs : Nat → ExecEnv) (name : String)
    (step : WorkflowStep) (rest : List WorkflowStep) (i : Nat) (log : List StepEntry)
    (res : List (String × AgentOutput)) (calls : List WorkflowStep) (msg : String)
    (hm : missingDeps step res = [])
    (hE : (reg.executeTask (envs i) step.agentType step.task
        (some (TaskContext.prev res)) none none).fst = Except.error msg) :
    (name ≠ "non-critical" →
      orchestrateLoop reg envs name (step :: rest) i log res calls
        = (Except.error msg, calls ++ [step])) ∧
    orchestrateLoop reg envs "non-critical" (step :: rest) i log res calls
      = orchestrateLoop reg envs "non-critical" rest (i + 1)
          (log ++ [StepEntry.failed step msg]) res (calls ++ [step]) :=
  ⟨fun hn => orchestrateLoop_fail_abort reg envs name step rest i log res calls msg hm hE hn,
   orchestrateLoop_fail_continue reg envs step rest i log res calls msg hm hE⟩

/-- C2 witness: concrete two-step workflow; under the name `critical-flow`
the run aborts after the failing step A and the independent step B is never
attempted; under `non-critical` the loop continues into B. -/
theorem C2_witness :
    orchestrateLoop cReg cEnvs "critical-flow" [stepA, stepB] 0 [] [] []
      = (Except.error "boom", [] ++ [stepA]) ∧
    orchestrateLoop cReg cEnvs "non-critical" [stepA, stepB] 0 [] [] []
      = orchestrateLoop cReg cEnvs "non-critical" [stepB] 1
          ([] ++ [StepEntry.failed stepA "boom"]) [] ([] ++ [stepA]) :=
  ⟨(C2_failure_propagation cReg cEnvs "critical-flow" stepA [stepB] 0 [] [] [] "boom"
      rfl rfl).1 (by decide),
   (C2_failure_propagation cReg cEnvs "critical-flow" stepA [stepB] 0 [] [] [] "boom"
      rfl rfl).2⟩

/-- C3: a step with a dependency key missing from the accumulated results
map is skipped outright: the loop continues with the remaining steps and
the step log, the results map and the call trace are all unchanged, so the
executor is never invoked and the step's key never becomes available. -/
theorem C3_dependency_skip (reg : AgentRegistry) (envs : Nat → ExecEnv) (name : String)
    (step : WorkflowStep) (rest : List WorkflowStep) (i : Nat) (log : List StepEntry)
    (res : List (String × AgentOutput)) (calls : List WorkflowStep)
    (hm : missingDeps step res ≠ []) :
    orchestrateLoop reg envs name (step :: rest) i log res calls
      = orchestrateLoop reg envs name rest (i + 1) log res calls :=
  orchestrateLoop_skip reg envs name step rest i log res calls hm

/-- C3 witness: the step depending on the never-produced key `Z` is
skipped. -/
theorem C3_witness :
    missingDeps stepDepZ [] ≠ [] ∧
    orchestrateLoop cReg cEnvs "wf" [stepDepZ] 0 [] [] []
      = orchestrateLoop cReg cEnvs "wf" [] 1 [] [] [] :=
  ⟨by decide, C3_dependency_skip cReg cEnvs "wf" stepDepZ [] 0 [] [] [] (by decide)⟩

theorem executeTasksFrom_length (reg : AgentRegistry) (envs : Nat → ExecEnv)
    (requests : List TaskRequest) :
    ∀ i, (executeTasksFrom reg envs i requests).length = requests.length := by
  induction requests with
  | nil => intro i; rfl
  | cons req rest ih => intro i; simp [executeTasksFrom, ih]

theorem executeTasksFrom_get (reg : AgentRegistry) (envs : Nat → ExecEnv)
    (requests : List TaskRequest) :
    ∀ i j req, requests.get? j = some req →
      (executeTasksFrom reg envs i requests).get? j
        = some (runOne reg (envs (i + j)) req) := by
  induction requests with
  | nil => intro i j req h; simp [List.get?] at h
  | cons r rest ih =>
      intro i j req h
      cases j with
      | zero =>
          simp only [List.get?] at h
          injection h with h
          subst h
          rfl
      | succ j2 =>
          have h2 : rest.get? j2 = some req := h
          have := ih (i + 1) j2 req h2
          rw [show i + (j2 + 1) = (i + 1) + j2 by omega]
          exact this

/-- C4: `executeTasks` always resolves with exactly one entry per request,
position-aligned with the input: entry `j` is `runOne` of request `j`
alone (so no other request's failure can influence it), and a request whose
`executeTask` invocation throws is converted in place into the failure stub
`{success: false, error, agentType}`. -/
theorem C4_batch_isolation (reg : AgentRegistry) (envs : Nat → ExecEnv)
    (requests : List TaskRequest) :
    (reg.executeTasks envs requests).length = requests.length ∧
    (∀ j req, requests.get? j = some req →
      (reg.executeTasks envs requests).get? j = some (runOne reg (envs j) req)) ∧
    (∀ j req msg, requests.get? j = some req →
      (reg.executeTask (envs j) req.agentType req.task req.context
          req.projectId req.taskId).fst = Except.error msg →
      (reg.executeTasks envs requests).get? j
        = some (BatchResult.stub msg req.agentType)) := by
  unfold AgentRegistry.executeTasks
  refine ⟨executeTasksFrom_length reg envs requests 0, ?_, ?_⟩
  · intro j req h
    have := executeTasksFrom_get reg envs requests 0 j req h
    rwa [Nat.zero_add] at this
  · intro j req msg h hE
    have hg := executeTasksFrom_get reg envs requests 0 j req h
    rw [Nat.zero_add] at hg
    rw [hg]
    unfold runOne
    rw [hE]

/-- C4 witness: a two-request batch, the second targeting an unregistered
type, yields two entries with the second converted to the failure stub. -/
theorem C4_witness :
    (cReg.executeTasks cEnvs wReqs).length = wReqs.length ∧
    (cReg.executeTasks cEnvs wReqs).get? 1
      = some (BatchResult.stub (notAvailableMsg "ghost") "ghost") :=
  ⟨(C4_batch_isolation cReg cEnvs wReqs).1,
   (C4_batch_isolation cReg cEnvs wReqs).2.2 1 wReq1 (notAvailableMsg "ghost") rfl rfl⟩

/-- C5: registering a disabled executor leaves the registry's map exactly
as it was (and raises no error — `registerAgent` is total); afterwards
`getAgent` on that type is `none` and `executeTask` against it fails with
the agent-not-found error with an empty persistence trace (no
ExecutionRecord is ever created). -/
theorem C5_disabled_registration (reg : AgentRegistry) (type task : String)
    (agent : BaseAgent) (env : ExecEnv) (context : Option TaskContext)
    (projectId taskId : Option String)
    (hdis : agent.isEnabled = false)
    (habs : reg.getAgent type = none) :
    (reg.registerAgent type agent).agents = reg.agents ∧
    (reg.registerAgent type agent).getAgent type = none ∧
    (reg.registerAgent type agent).executeTask env type task context projectId taskId
      = (Except.error (notAvailableMsg type), []) := by
  have h1 : reg.registerAgent type agent = reg := by
    unfold AgentRegistry.registerAgent
    rw [hdis]
    rfl
  rw [h1]
  refine ⟨rfl, habs, ?_⟩
  unfold AgentRegistry.executeTask
  rw [habs]

/-- C5 witness: registering the disabled agent on the empty registry. -/
theorem C5_witness :
    disabledAgent.isEnabled = false ∧
    (emptyReg.registerAgent "off" disabledAgent).agents = emptyReg.agents ∧
    (emptyReg.registerAgent "off" disabledAgent).getAgent "off" = none ∧
    (emptyReg.registerAgent "off" disabledAgent).executeTask cEnv "off" "t" none none none
      = (Except.error (notAvailableMsg "off"), []) :=
  ⟨rfl, C5_disabled_registration emptyReg "off" "t" disabledAgent cEnv none none none rfl rfl⟩

/-- C7: when the initial persistence write succeeds, the trace of one
`processTask` run is exactly one `running` write, strictly followed by the
executor invocation, strictly followed by exactly one terminal write whose
status is `completed` or `failed` according to the executor's outcome; no
record is left in `running`. -/
theorem C7_record_lifecycle (a : BaseAgent) (input : AgentInput) (env : ExecEnv)
    (hsave : env.initSaveErr = none) :
    (a.processTask input env).snd.map eventTag
      = [EventTag.save "running", EventTag.invoke,
         EventTag.save (terminalStatus (a.execute input))] ∧
    (terminalStatus (a.execute input) = "completed" ∨
     terminalStatus (a.execute input) = "failed") := by
  constructor
  · unfold BaseAgent.processTask
    rw [hsave]
    cases hx : a.execute input with
    | ok result => simp only [List.map, eventTag, terminalStatus]
    | error msg => rfl
  · cases hx : a.execute input with
    | ok result =>
        by_cases hs : result.success
        · left; simp [terminalStatus, hs]
        · right; simp [terminalStatus, hs]
    | error msg => right; rfl

/-- C7 witness: the succeeding agent's run. -/
theorem C7_witness :
    (okAgent.processTask { task := "t" } cEnv).snd.map eventTag
      = [EventTag.save "running", EventTag.invoke,
         EventTag.save (terminalStatus (okAgent.execute { task := "t" }))] ∧
    (terminalStatus (okAgent.execute { task := "t" }) = "completed" ∨
     terminalStatus (okAgent.execute { task := "t" }) = "failed") :=
  C7_record_lifecycle okAgent { task := "t" } cEnv rfl

/-- With the initial save succeeding, the trace of `processTask` is the
running write, the invocation, and the terminal write. -/
theorem processTask_snd (a : BaseAgent) (input : AgentInput) (env : ExecEnv)
    (hsave : env.initSaveErr = none) :
    (a.processTask input env).snd
      = [PersistEvent.save (runningRecord a input env), PersistEvent.exec,
         PersistEvent.save (terminalRecordOf a input env (a.execute input))] := by
  unfold BaseAgent.processTask
  rw [hsave]
  cases hx : a.execute input with
  | ok res => rfl
  | error msg => rfl

/-- C6 (counterexample): for an executor that returns
`{success:false, error:"boom"}` without throwing, the terminal record has
status `failed` and yet a present `output` field (holding the error
string), refuting "output is present only when status is completed". -/
theorem C6_counterexample :
    (terminalRecord (failAgent.processTask { task := "t" } cEnv).snd).map
        (fun r => (r.status, r.output))
      = some ("failed", some "boom") := rfl

/-- C6 (amended): in the terminal record, when the executor returns a
result, the status is `completed` iff the result succeeded, `output` holds
the serialized result on success and the error string on a returned
failure, and `error` mirrors the result's error field (so `output` can be
present on a failed record and `error` on a completed one); when the
executor throws, the record is `failed` with no `output` and the exception
message as `error`. -/
theorem C6_amended_terminal_fields (a : BaseAgent) (input : AgentInput) (env : ExecEnv)
    (hsave : env.initSaveErr = none) (r : ExecutionRecord)
    (hterm : terminalRecord (a.processTask input env).snd = some r) :
    (r.status = "completed" ∨ r.status = "failed") ∧
    (∀ res, a.execute input = Except.ok res →
      r.status = (if res.success then "completed" else "failed") ∧
      r.output = (if res.success then res.result else res.error) ∧
      r.error = res.error) ∧
    (∀ msg, a.execute input = Except.error msg →
      r.status = "failed" ∧ r.output = none ∧ r.error = some msg) := by
  rw [processTask_snd a input env hsave] at hterm
  have hr : some (terminalRecordOf a input env (a.execute input)) = some r := by
    rw [← hterm]
    rfl
  injection hr with hr
  subst hr
  refine ⟨?_, ?_, ?_⟩
  · cases hx : a.execute input with
    | ok res =>
        by_cases hs : res.success
        · left; simp [terminalRecordOf, hs]
        · right; simp [terminalRecordOf, hs]
    | error msg => right; simp [terminalRecordOf]
  · intro res hx
    rw [hx]
    exact ⟨rfl, rfl, rfl⟩
  · intro msg hx
    rw [hx]
    exact ⟨rfl, rfl, rfl⟩

/-- C6 witness: the amended characterization at the concrete failing
agent. -/
theorem C6_witness :
    c6rec.status = (if c6res.success then "completed" else "failed") ∧
    c6rec.output = (if c6res.success then c6res.result else c6res.error) ∧
    c6rec.error = c6res.error :=
  (C6_amended_terminal_fields failAgent { task := "t" } cEnv rfl c6rec rfl).2.1 c6res rfl

/-- C8: whenever `orchestrateWorkflow` returns without aborting, the report
carries the workflow name, `totalSteps` equal to the full step-list length
(skipped steps included), `completedSteps`/`failedSteps` equal to the
counts of the corresponding statuses in the ordered step log, and a results
map equal to replaying the log: every completed entry's result stored under
its `step.task` key. -/
theorem C8_report_shape (reg : AgentRegistry) (envs : Nat → ExecEnv) (w : Workflow)
    (run : WorkflowRun) (calls : List WorkflowStep)
    (h : reg.orchestrateWorkflow envs w = (Except.ok run, calls)) :
    run.workflow = w.name ∧
    run.totalSteps = w.steps.length ∧
    run.completedSteps = (run.steps.filter (fun s => s.status == "completed")).length ∧
    run.failedSteps = (run.steps.filter (fun s => s.status == "failed")).length ∧
    run.results = resultsOfLog run.steps [] := by
  obtain ⟨hL, h1, h2, h3, h4⟩ := orchestrateWorkflow_ok reg envs w run calls h
  exact ⟨h1, h2, h3, h4,
    orchestrateLoop_results reg envs w.name w.steps 0 [] [] [] run.steps run.results calls
      hL rfl⟩

/-- C8 witness: the dependency-skipping workflow (A, B after A, C with an
unmet dependency) reports 3 total steps, a two-entry log, and a results map
with keys A and B. -/
theorem C8_witness :
    cReg.orchestrateWorkflow cEnvs wfABC = (Except.ok c8run, c8pair.snd) ∧
    (c8run.workflow = wfABC.name ∧
     c8run.totalSteps = wfABC.steps.length ∧
     c8run.completedSteps = (c8run.steps.filter (fun s => s.status == "completed")).length ∧
     c8run.failedSteps = (c8run.steps.filter (fun s => s.status == "failed")).length ∧
     c8run.results = resultsOfLog c8run.steps []) :=
  ⟨rfl, C8_report_shape cReg cEnvs wfABC c8run c8pair.snd rfl⟩

/-- C9: when two completed steps share the same task key, the final results
map holds the later step's result under that key (the later overwrites the
earlier, provided no later completed entry writes it again); moreover a key
once present stays present through the rest of the run (so the earlier
completion already satisfies any later dependency on it), and a step
depending on a present key is never considered missing. -/
theorem C9_duplicate_task_key (reg : AgentRegistry) (envs : Nat → ExecEnv) (w : Workflow)
    (run : WorkflowRun) (calls : List WorkflowStep)
    (h : reg.orchestrateWorkflow envs w = (Except.ok run, calls))
    (t : String) (pre mid post : List StepEntry) (s1 s2 : WorkflowStep)
    (r1 r2 : AgentOutput)
    (hsplit : run.steps
      = pre ++ StepEntry.completed s1 r1 :: (mid ++ StepEntry.completed s2 r2 :: post))
    (ht1 : s1.task = t) (ht2 : s2.task = t)
    (hpost : ∀ e ∈ post, writesKey t e = false) :
    mapGet t run.results = some r2 ∧
    (∀ (steps : List WorkflowStep) (i : Nat) (log log2 : List StepEntry)
       (res res2 : List (String × AgentOutput)) (calls0 calls2 : List WorkflowStep),
      orchestrateLoop reg envs w.name steps i log res calls0
          = (Except.ok (log2, res2), calls2) →
      mapHas t res = true → mapHas t res2 = true) ∧
    (∀ (s : WorkflowStep) (res : List (String × AgentOutput)),
      mapHas t res = true → t ∉ missingDeps s res) := by
  obtain ⟨hL, -, -, -, -⟩ := orchestrateWorkflow_ok reg envs w run calls h
  have hres : run.results = resultsOfLog run.steps [] :=
    orchestrateLoop_results reg envs w.name w.steps 0 [] [] [] run.steps run.results calls
      hL rfl
  subst ht2
  refine ⟨?_, ?_, ?_⟩
  · rw [hres, hsplit]
    have hlist : pre ++ StepEntry.completed s1 r1 :: (mid ++ StepEntry.completed s2 r2 :: post)
        = ((pre ++ StepEntry.completed s1 r1 :: mid) ++ [StepEntry.completed s2 r2]) ++ post := by
      simp
    rw [hlist, resultsOfLog_append, resultsOfLog_append,
      mapGet_resultsOfLog_not_written s2.task post _ hpost]
    simp [resultsOfLog, mapGet_mapSet_self]
  · intro steps i log log2 res res2 calls0 calls2 hLoop hhas
    exact orchestrateLoop_mono reg envs w.name s2.task steps i log res calls0 log2 res2 calls2
      hLoop hhas
  · intro s res hhas
    unfold missingDeps
    cases s.dependencies with
    | none => simp
    | some deps =>
        intro hmem
        rw [List.mem_filter] at hmem
        exact absurd hmem.2 (by simp [hhas])

/-- C9 witness: two steps with the shared key `dup`; the final map holds
the second step's result (with the second call's execution id). -/
theorem C9_witness :
    mapGet "dup" c9run.results = some rDup2 :=
  (C9_duplicate_task_key cReg idxEnvs wfDup c9run c9pair.snd rfl "dup" [] [] []
    dupStep dupStep rDup1 rDup2 rfl rfl rfl (by simp)).1

/-- C10: `getAllAgents` and `getConfig` hand out fresh copies: the returned
address differs from the internal one, holds equal contents, and mutating
the copy leaves the internal object unchanged; the allocation itself also
leaves the internal object unchanged (the read operations `getAgentH` and
`getAvailableAgentsH` return values without touching the heap at all, so
`registerAgentH` is the only registry operation that writes the map
object). -/
theorem C10_copy_isolation (h : Heap AgentsMap) (regAddr : Nat) (hv : regAddr < h.next)
    (v : AgentsMap) (hc : Heap AgentConfig) (cfgAddr : Nat) (hcv : cfgAddr < hc.next)
    (cv : AgentConfig) :
    ((getAllAgentsH h regAddr).fst ≠ regAddr ∧
     (getAllAgentsH h regAddr).snd.get (getAllAgentsH h regAddr).fst
        = some ((h.get regAddr).getD []) ∧
     (getAllAgentsH h regAddr).snd.get regAddr = h.get regAddr ∧
     ((getAllAgentsH h regAddr).snd.set (getAllAgentsH h regAddr).fst v).get regAddr
        = h.get regAddr) ∧
    ((getConfigH hc cfgAddr).fst ≠ cfgAddr ∧
     (getConfigH hc cfgAddr).snd.get (getConfigH hc cfgAddr).fst
        = some ((hc.get cfgAddr).getD default) ∧
     (getConfigH hc cfgAddr).snd.get cfgAddr = hc.get cfgAddr ∧
     ((getConfigH hc cfgAddr).snd.set (getConfigH hc cfgAddr).fst cv).get cfgAddr
        = hc.get cfgAddr) := by
  have hne : h.next ≠ regAddr := by omega
  have hne2 : hc.next ≠ cfgAddr := by omega
  refine ⟨⟨hne, ?_, ?_, ?_⟩, ⟨hne2, ?_, ?_, ?_⟩⟩ <;>
    simp [getAllAgentsH, getConfigH, Heap.alloc, Heap.get, Heap.set, mapGet, mapSet,
      hne, hne2]

/-- C10 witness: concrete one-object heaps; overwriting the copy does not
change the registry map or the stored config. -/
theorem C10_witness :
    (getAllAgentsH c10maps 0).fst ≠ 0 ∧
    ((getAllAgentsH c10maps 0).snd.set (getAllAgentsH c10maps 0).fst []).get 0
      = c10maps.get 0 ∧
    ((getConfigH c10cfgs 0).snd.set (getConfigH c10cfgs 0).fst okAgentCfg).get 0
      = c10cfgs.get 0 := by
  obtain ⟨⟨a1, a2, a3, a4⟩, b1, b2, b3, b4⟩ :=
    C10_copy_isolation c10maps 0 (by decide) [] c10cfgs 0 (by decide) okAgentCfg
  exact ⟨a1, a4, b4⟩

end LotusCoder
